import Mathlib

/-!
Verification of the prompt-library core: the record model, template
rendering, loader, format validator, and the test harness's scoring and
error handling.  Python strings are modelled as `List Char`; machine
floats of the scoring heuristic are modelled as `ℚ`; Python exceptions
are modelled with `Except`, where `Except.error` marks an exception
propagating to the caller; YAML documents are modelled by the inductive
type `Yaml`.
-/

namespace PromptLib

/-- Python strings, modelled as lists of characters. -/
abbrev Str := List Char

/-- Shorthand embedding of a string literal. -/
def S (s : String) : Str := s.data

/-- Whitespace for Python `str.strip` / `str.split` (ASCII range). -/
def pyIsSpace (c : Char) : Bool :=
  c = ' ' || c = '\t' || c = '\n' || c = '\r' || c = '\x0b' || c = '\x0c'

/-- Python `s.strip()`: remove leading and trailing whitespace. -/
def pyStrip (s : Str) : Str :=
  ((s.dropWhile pyIsSpace).reverse.dropWhile pyIsSpace).reverse

/-- Auxiliary for `pyWords`: accumulates the current word (reversed). -/
def pyWordsAux : Str → Str → List Str
  | [], acc => if acc = [] then [] else [acc.reverse]
  | c :: cs, acc =>
      if pyIsSpace c then
        if acc = [] then pyWordsAux cs [] else acc.reverse :: pyWordsAux cs []
      else pyWordsAux cs (c :: acc)

/-- Python `s.split()` with no separator: split on whitespace runs. -/
def pyWords (s : Str) : List Str := pyWordsAux s []

/-- Predicate `leads p s`: `p` is a leading segment of `s` (Python slice equality). -/
def leads : Str → Str → Bool
  | [], _ => true
  | _ :: _, [] => false
  | a :: ps, b :: ss => a = b && leads ps ss

/-- Python `pat in s`: `pat` occurs contiguously somewhere in `s`. -/
def occursIn (pat : Str) : Str → Bool
  | [] => leads pat []
  | c :: cs => leads pat (c :: cs) || occursIn pat cs

/-- Python `s.lower()` (ASCII letters suffice for this code base). -/
def pyLower (s : Str) : Str := s.map Char.toLower

/-- Fuelled scanner for `replaceL` (structural recursion on the fuel so
that the kernel can evaluate it; the fuel is always at least the length
of the remaining text). -/
def replaceFuel (pat rep : Str) : Nat → Str → Str
  | _, [] => []
  | 0, s => s
  | n + 1, c :: cs =>
      if pat ≠ [] ∧ leads pat (c :: cs) = true then
        rep ++ replaceFuel pat rep n ((c :: cs).drop pat.length)
      else
        c :: replaceFuel pat rep n cs

/-- Python `s.replace(pat, rep)` for a nonempty `pat`: replace every
leftmost, non-overlapping occurrence.  (The source only ever calls
`replace` with the nonempty pattern `"{" + name + "}"`; for an empty
pattern this model leaves `s` unchanged.) -/
def replaceL (pat rep s : Str) : Str := replaceFuel pat rep s.length s

/-- The placeholder token `f"{{{name}}}"` of the source. -/
def tok (name : Str) : Str := '{' :: (name ++ ['}'])

/-- A name free of both brace characters (the placeholder delimiters). -/
def braceFree (s : Str) : Bool := s.all (fun c => c ≠ '{' && c ≠ '}')

/-! ## Record model: `Prompt.render` (src/prompt_manager.py, lines 54-65) -/

/-- The `PromptParameter` dataclass, in its declared (well-typed) shape
as consumed by `Prompt.render` (`render`'s keyword values are `str` by
its signature; the dataclass annotations give the field types). -/
structure PromptParameter where
  name : Str
  type : Str := S "string"
  required : Bool := true
  description : Str := []
  default : Option Str := none

/-- Membership/lookup in the `kwargs` mapping (a Python `dict` with
unique keys, modelled as an association list; first match wins). -/
def lookupS (kwargs : List (Str × Str)) (k : Str) : Option Str :=
  match kwargs with
  | [] => none
  | kv :: rest => if kv.1 = k then some kv.2 else lookupS rest k

/-- Message of the `ValueError` raised by `Prompt.render`. -/
def missingMsg (name : Str) : Str := S "Missing required parameter: " ++ name

/-- The loop body of `Prompt.render`: parameters in declaration order;
a supplied value replaces every occurrence of `{name}`; a required
parameter with no default and no value raises; a default substitutes;
otherwise the text is left alone. -/
def renderGo (kwargs : List (Str × Str)) : List PromptParameter → Str → Except Str Str
  | [], text => .ok text
  | p :: ps, text =>
    match lookupS kwargs p.name with
    | some v => renderGo kwargs ps (replaceL (tok p.name) v text)
    | none =>
      if p.required && p.default.isNone then .error (missingMsg p.name)
      else
        match p.default with
        | some d => renderGo kwargs ps (replaceL (tok p.name) d text)
        | none => renderGo kwargs ps text

/-- Embeds `Prompt.render(self, **kwargs)`. -/
def render (template : Str) (params : List PromptParameter) (kwargs : List (Str × Str)) :
    Except Str Str :=
  renderGo kwargs params template

/-- A declared parameter that must be supplied but is not: not a key of
the substitutions, required, and without a default. -/
def unsatisfied (kwargs : List (Str × Str)) (p : PromptParameter) : Bool :=
  (lookupS kwargs p.name).isNone && p.required && p.default.isNone

/-- One substitution step, per the spec's branch description. -/
def substStep (kwargs : List (Str × Str)) (text : Str) (p : PromptParameter) : Str :=
  match lookupS kwargs p.name with
  | some v => replaceL (tok p.name) v text
  | none =>
    match p.default with
    | some d => replaceL (tok p.name) d text
    | none => text

/-- Transcription of the specified rendering contract: fail with a
`MissingParameter` error naming the first (in declaration order)
unsatisfiable parameter, with no partially rendered output; otherwise
substitute for each declared parameter in declaration order. -/
def renderSpec (template : Str) (params : List PromptParameter)
    (kwargs : List (Str × Str)) : Except Str Str :=
  match params.find? (unsatisfied kwargs) with
  | some p => .error (missingMsg p.name)
  | none => .ok (params.foldl (substStep kwargs) template)

/-! ## Test harness scoring: `PromptTester._score_quality`
(src/prompt_tester.py, lines 196-220) -/

/-- The structural markers of `_score_quality`.  The source tests them
with Python `in`, i.e. as substrings of the whole output. -/
def markers : List Str := [S "- ", S "* ", S "1.", S "## "]

/-- Embeds `any(marker in output for marker in [...])`. -/
def hasMarker (output : Str) : Bool := markers.any (fun m => occursIn m output)

/-- The length bonus: `+1.0` at 50 words, a further `+0.5` at 200. -/
def lenBonus (output : Str) : ℚ :=
  (if 50 ≤ (pyWords output).length then 1 else 0) +
    (if 200 ≤ (pyWords output).length then 1/2 else 0)

/-- The expected-content bonus: `match_rate * 3.0` when any expected
keywords were given (Python truthiness of the `expected` list). -/
def matchBonus (expected missing : List Str) : ℚ :=
  if expected ≠ [] then
    ((expected.length : ℚ) - missing.length) / expected.length * 3
  else 0

/-- The structure bonus: `+0.5` when any marker occurs in the output. -/
def structBonus (output : Str) : ℚ := if hasMarker output then 1/2 else 0

/-- Embeds `PromptTester._score_quality(output, expected, missing)`.  The
Python floats are modelled as rationals; the sequence of `+=` steps is
written as one sum, and the final score is clamped at `10.0`. -/
def score_quality (output : Str) (expected missing : List Str) : ℚ :=
  if pyStrip output = [] then 0
  else min (5 + lenBonus output + matchBonus expected missing + structBonus output) 10

/-! ## Claim C6: the structure bonus condition -/

/-- Auxiliary for `splitLines` (accumulates the current line reversed). -/
def splitLinesAux : Str → Str → List Str
  | [], acc => [acc.reverse]
  | c :: cs, acc =>
      if c = '\n' then acc.reverse :: splitLinesAux cs []
      else splitLinesAux cs (c :: acc)

/-- The lines of a string (split at newline characters). -/
def splitLines (s : Str) : List Str := splitLinesAux s []

/-- Transcription of C6's condition: some line of the output starts
with one of the four structural markers. -/
def lineStartMarker (output : Str) : Bool :=
  (splitLines output).any (fun l => markers.any (fun m => leads m l))

/-! ## YAML documents

Parsed record files, as delivered by `yaml.safe_load`.  A parse attempt
is an `Except Str Yaml`: `Except.error` is a raised parse exception. -/

inductive Yaml where
  | null : Yaml
  | bool (b : Bool) : Yaml
  | int (n : Int) : Yaml
  | flt (q : ℚ) : Yaml
  | str (s : Str) : Yaml
  | arr (l : List Yaml) : Yaml
  | map (l : List (Str × Yaml)) : Yaml

instance : Inhabited Yaml := ⟨Yaml.null⟩

/-- Key lookup in a parsed mapping (keys are unique in a Python dict). -/
def yFind : List (Str × Yaml) → Str → Option Yaml
  | [], _ => none
  | kv :: rest, k => if kv.1 = k then some kv.2 else yFind rest k

/-- Embeds `d.get(k, dflt)` on a mapping. -/
def yGetD (d : List (Str × Yaml)) (k : Str) (dflt : Yaml) : Yaml :=
  match yFind d k with
  | some v => v
  | none => dflt

/-- Python truthiness of a YAML value. -/
def yTruthy : Yaml → Bool
  | .null => false
  | .bool b => b
  | .int n => n ≠ 0
  | .flt q => q ≠ 0
  | .str s => !s.isEmpty
  | .arr l => !l.isEmpty
  | .map l => !l.isEmpty

/-- Exception tags (the message text is schematic; only which
operation raises matters to the claims). -/
def attrErr : Str := S "AttributeError"

def typeErr : Str := S "TypeError"

def keyErr : Str := S "KeyError"

def idxErr : Str := S "IndexError"

/-- Python iteration over a YAML value: lists yield elements, strings
yield one-character strings, mappings yield their keys; anything else
raises `TypeError`. -/
def yamlIter : Yaml → Except Str (List Yaml)
  | .arr l => .ok l
  | .str s => .ok (s.map (fun c => .str [c]))
  | .map l => .ok (l.map (fun kv => .str kv.1))
  | _ => .error typeErr

/-! ## Test harness: `PromptTester` (src/prompt_tester.py) -/

/-- The `TestResult` dataclass. -/
structure TestResult where
  prompt_name : Yaml
  test_input : Yaml
  output : Str
  quality_score : ℚ
  latency_ms : ℚ
  token_count : Nat
  passed : Bool
  expected_contains : Yaml
  missing_keywords : List Str
  error : Option Str

/-- Message of the `ValueError` raised by `_get_client`. -/
def configMsg : Str :=
  S "GEMINI_API_KEY not set. Pass api_key or set GEMINI_API_KEY env var."

/-- Embeds `PromptTester._get_client`: raises eagerly when no credential is
configured (before the client is even constructed); the client object
itself is opaque. -/
def get_client (apiKey : Option Str) : Except Str Unit :=
  match apiKey with
  | none => .error configMsg
  | some _ => .ok ()

/-- Embeds `x[0]` (Python subscripting by the constant 0). -/
def ySub0 : Yaml → Except Str Yaml
  | .arr (e :: _) => .ok e
  | .arr [] => .error idxErr
  | .str (c :: _) => .ok (.str [c])
  | .str [] => .error idxErr
  | .map _ => .error keyErr
  | _ => .error typeErr

/-- Embeds `x.get(k, dflt)`: `AttributeError` when `x` is not a mapping. -/
def yGet (x : Yaml) (k : Str) (dflt : Yaml) : Except Str Yaml :=
  match x with
  | .map m => .ok (yGetD m k dflt)
  | _ => .error attrErr

/-- A value that must be a mapping for an attribute access such as
`.get` to succeed; `AttributeError` otherwise. -/
def asMap : Yaml → Except Str (List (Str × Yaml))
  | .map d => .ok d
  | _ => .error attrErr

/-- The `elif examples: ... else: ...` input fallback of lines 109-112. -/
def resolveInputFromExamples (examples : Yaml) : Except Str Yaml :=
  if yTruthy examples then do
    let e ← ySub0 examples
    yGet e (S "input") (.map [])
  else .ok (.map [])

/-- Lines 106-112: resolve the input mapping.  Note the Python
truthiness test `if test_input:` — an explicitly supplied empty dict is
falsy and falls through to the example branch. -/
def resolveInput (testInput : Option (List (Str × Str))) (examples : Yaml) :
    Except Str Yaml :=
  match testInput with
  | some ti =>
      if ti ≠ [] then .ok (.map (ti.map (fun kv => (kv.1, Yaml.str kv.2))))
      else resolveInputFromExamples examples
  | none => resolveInputFromExamples examples

/-- Lines 114-116: expected keywords are inherited from the first
example exactly when `examples` is truthy and `test_input` is falsy. -/
def resolveExpected (testInput : Option (List (Str × Str))) (examples : Yaml) :
    Except Str Yaml :=
  if yTruthy examples && (match testInput with | some ti => ti.isEmpty | none => true) then do
    let e ← ySub0 examples
    yGet e (S "expected_output_contains") (.arr [])
  else .ok (.arr [])

/-- Lines 119-121: raw key/value substitution over the template text.
A non-string working text raises `AttributeError` (no `.replace`); a
non-string value raises `TypeError` (bad `replace` argument).  Both are
outside the `try` block. -/
def rawRender (template : Yaml) (inputData : Yaml) : Except Str Yaml :=
  match inputData with
  | .map m =>
      m.foldlM (fun r kv =>
        match r, kv.2 with
        | .str s, .str v => .ok (.str (replaceL (tok kv.1) v s))
        | .str _, _ => .error typeErr
        | _, _ => .error attrErr) template
  | _ => .error attrErr

/-- Everything `test_prompt` computes before entering its `try` block. -/
structure Prepared where
  prompt_name : Yaml
  input_data : Yaml
  expected : Yaml
  rendered : Yaml
  model_name : Yaml
  temperature : Yaml
  max_tokens : Yaml

def defaultModel : Str := S "gemini-2.5-flash-lite"

/-- Embeds `model or metadata.get("recommended_model", default)`: the explicit
argument wins when truthy (a supplied empty string is falsy). -/
def pickModel (modelArg : Option Str) (md : List (Str × Yaml)) : Yaml :=
  match modelArg with
  | some m =>
      if m ≠ [] then .str m
      else yGetD md (S "recommended_model") (.str defaultModel)
  | none => yGetD md (S "recommended_model") (.str defaultModel)

/-- Lines 96-121 of `test_prompt`: the phase before the `try` block.
An `Except.error` here models a Python exception escaping `test_prompt`
itself: a failed parse, a non-mapping document (`data.get` missing), a
non-mapping metadata value (`metadata.get` at lines 103-104 — checked
once here, observably the same), a bad subscript or `.get` while
resolving inputs, or a type error in the raw render loop. -/
def prepare (stem : Str) (parsed : Except Str Yaml)
    (testInput : Option (List (Str × Str))) (modelArg : Option Str) :
    Except Str Prepared := do
  let data ← parsed
  let d ← asMap data
  let promptName := yGetD d (S "name") (.str stem)
  let template := yGetD d (S "template") (.str [])
  let md ← asMap (yGetD d (S "metadata") (.map []))
  let modelName := pickModel modelArg md
  let temperature := yGetD md (S "temperature") (.flt (7/10))
  let examples := yGetD d (S "examples") (.arr [])
  let inputData ← resolveInput testInput examples
  let expected ← resolveExpected testInput examples
  let rendered ← rawRender template inputData
  Except.ok ⟨promptName, inputData, expected, rendered, modelName, temperature,
    yGetD md (S "max_tokens") (.int 1024)⟩

/-- The zeroed failure `TestResult` built in the `except` branch
(lines 158-168): zero score, zero latency, zero token count, not
passed, and the exception text as the error field. -/
def errorResult (name : Yaml) (input : Yaml) (e : Str) : TestResult :=
  ⟨name, input, [], 0, 0, 0, false, .arr [], [], some e⟩

/-- Iterating `expected_contains` and lowering each keyword (inside the
`try`): a non-iterable raises `TypeError`, a non-string keyword raises
`AttributeError` at `kw.lower()`; both are caught by the `except`. -/
def expectedKws (expected : Yaml) : Except Str (List Str) := do
  let l ← yamlIter expected
  l.mapM (fun kw => match kw with
    | .str s => Except.ok s
    | _ => Except.error attrErr)

/-- Lines 124-168: the `try` block.  `svc` is the opaque external
generation call (the sole network boundary) applied to the rendered
contents; `lat` is the wall-clock latency observed on success.  Every
error raised inside is converted into a zeroed failure result.  The
source scores with the raw `expected_contains` object; iteration
preserves its length and truthiness, so scoring with the extracted
keyword strings is observably identical. -/
def tryBlock (apiKey : Option Str) (svc : Yaml → Except Str Str) (lat : ℚ)
    (p : Prepared) : TestResult :=
  match get_client apiKey with
  | .error e => errorResult p.prompt_name p.input_data e
  | .ok _ =>
    match svc p.rendered with
    | .error e => errorResult p.prompt_name p.input_data e
    | .ok output =>
      match expectedKws p.expected with
      | .error e => errorResult p.prompt_name p.input_data e
      | .ok kws =>
        let missing := kws.filter (fun kw => !(occursIn (pyLower kw) (pyLower output)))
        ⟨p.prompt_name, p.input_data, output, score_quality output kws missing, lat,
          (pyWords output).length,
          missing.isEmpty && !(pyStrip output).isEmpty,
          p.expected, missing, none⟩

/-- Embeds `PromptTester.test_prompt(prompt_path, test_input, model)`.  The
file is given by its stem and its parse outcome; `apiKey` is the
configured credential; the result is `Except.error` exactly when a
Python exception escapes to the caller. -/
def test_prompt (apiKey : Option Str) (svc : Yaml → Except Str Str) (lat : ℚ)
    (stem : Str) (parsed : Except Str Yaml)
    (testInput : Option (List (Str × Str))) (modelArg : Option Str) :
    Except Str TestResult :=
  match prepare stem parsed testInput modelArg with
  | .error e => .error e
  | .ok p => .ok (tryBlock apiKey svc lat p)

/-- The `BatchTestResult` dataclass. -/
structure BatchTestResult where
  total : Nat
  passed : Nat
  failed : Nat
  results : List TestResult
  avg_quality : ℚ
  avg_latency_ms : ℚ

/-- Embeds `PromptTester.test_batch` over the already-discovered, sorted list
of record files (stem, parse outcome): strictly sequential, one
`test_prompt` per file; an exception escaping `test_prompt` aborts the
whole batch. -/
def test_batch (apiKey : Option Str) (svc : Yaml → Except Str Str) (lat : ℚ)
    (files : List (Str × Except Str Yaml)) (modelArg : Option Str) :
    Except Str BatchTestResult := do
  let results ← files.mapM (fun f => test_prompt apiKey svc lat f.1 f.2 none modelArg)
  let passed := (results.filter (fun r => r.passed)).length
  Except.ok ⟨results.length, passed, results.length - passed, results,
    (if !results.isEmpty then (results.map (fun r => r.quality_score)).sum / results.length else 0),
    (if !results.isEmpty then (results.map (fun r => r.latency_ms)).sum / results.length else 0)⟩

/-! ## Library Index loader: `PromptManager._load_prompt` / `_load_all`
(src/prompt_manager.py, lines 95-149)

The Python dataclasses enforce no runtime types, so a loaded record
stores whatever values the YAML file supplied; loaded-record fields are
therefore modelled as `Yaml` values. -/

/-- A loaded `PromptParameter` as stored by the loader. -/
structure RawParameter where
  name : Yaml
  type : Yaml
  required : Yaml
  description : Yaml
  default : Yaml

/-- A loaded `PromptMetadata` as stored by the loader. -/
structure RawMetadata where
  recommended_model : Yaml
  expected_tokens : Yaml
  temperature : Yaml
  tags : Yaml
  max_tokens : Yaml

/-- A loaded `PromptExample` as stored by the loader. -/
structure RawExample where
  input : Yaml
  expected_output_contains : Yaml
  expected_output : Yaml

/-- A loaded `Prompt` as stored by the loader. -/
structure RawPrompt where
  name : Yaml
  version : Yaml
  category : Yaml
  description : Yaml
  template : Yaml
  parameters : List RawParameter
  metadata : RawMetadata
  examples : List RawExample
  file_path : Str

/-- Embeds `x[k]` for a string key: `KeyError` when absent from a mapping,
`TypeError` when `x` is not a mapping. -/
def ySubKey (x : Yaml) (k : Str) : Except Str Yaml :=
  match x with
  | .map m =>
    match yFind m k with
    | some v => .ok v
    | none => .error keyErr
  | _ => .error typeErr

/-- One `PromptParameter(...)` build of lines 110-119 (the `p["name"]`
subscript is evaluated first, then the `p.get` calls). -/
def loadParameter (p : Yaml) : Except Str RawParameter := do
  let name ← ySubKey p (S "name")
  let ptype ← yGet p (S "type") (.str (S "string"))
  let req ← yGet p (S "required") (.bool true)
  let desc ← yGet p (S "description") (.str [])
  let dflt ← yGet p (S "default") .null
  Except.ok ⟨name, ptype, req, desc, dflt⟩

/-- The metadata build of lines 121-128; a non-mapping metadata value
raises `AttributeError` at the first `.get`. -/
def loadMetadata (metaData : Yaml) : Except Str RawMetadata := do
  let rm ← yGet metaData (S "recommended_model") (.str defaultModel)
  let et ← yGet metaData (S "expected_tokens") (.int 500)
  let tp ← yGet metaData (S "temperature") (.flt (7/10))
  let tg ← yGet metaData (S "tags") (.arr [])
  let mt ← yGet metaData (S "max_tokens") .null
  Except.ok ⟨rm, et, tp, tg, mt⟩

/-- One `PromptExample(...)` build of lines 130-137. -/
def loadExample (ex : Yaml) : Except Str RawExample := do
  let inp ← yGet ex (S "input") (.map [])
  let eoc ← yGet ex (S "expected_output_contains") (.arr [])
  let eo ← yGet ex (S "expected_output") .null
  Except.ok ⟨inp, eoc, eo⟩

/-- Embeds `PromptManager._load_prompt(path)` on the parse outcome of one
file; `Except.error` models any raised exception (the caller skips the
file).  Source evaluation order: parameters (110-119), metadata
(121-128), examples (130-137), then the `Prompt(...)` call whose
`data["name"]` subscript (line 140) raises `KeyError` when absent. -/
def load_prompt (path : Str) (parsed : Except Str Yaml) : Except Str RawPrompt := do
  let data ← parsed
  let d ← asMap data
  let ps ← yamlIter (yGetD d (S "parameters") (.arr []))
  let parameters ← ps.mapM loadParameter
  let metadata ← loadMetadata (yGetD d (S "metadata") (.map []))
  let exs ← yamlIter (yGetD d (S "examples") (.arr []))
  let examples ← exs.mapM loadExample
  let name ← ySubKey data (S "name")
  Except.ok ⟨name, yGetD d (S "version") (.str (S "1.0")),
    yGetD d (S "category") (.str (S "uncategorized")),
    yGetD d (S "description") (.str []),
    yGetD d (S "template") (.str []),
    parameters, metadata, examples, path⟩

mutual

/-- Structural equality of YAML values (Python `==` on parsed data),
used only for dict-key comparison in the cache. -/
def Yaml.beq : Yaml → Yaml → Bool
  | .null, .null => true
  | .bool a, .bool b => a == b
  | .int a, .int b => a == b
  | .flt a, .flt b => a == b
  | .str a, .str b => a == b
  | .arr a, .arr b => Yaml.beqList a b
  | .map a, .map b => Yaml.beqMap a b
  | _, _ => false

def Yaml.beqList : List Yaml → List Yaml → Bool
  | [], [] => true
  | x :: xs, y :: ys => Yaml.beq x y && Yaml.beqList xs ys
  | _, _ => false

def Yaml.beqMap : List (Str × Yaml) → List (Str × Yaml) → Bool
  | [], [] => true
  | x :: xs, y :: ys => x.1 == y.1 && Yaml.beq x.2 y.2 && Yaml.beqMap xs ys
  | _, _ => false

end

/-- Embeds `self._cache[name] = prompt`: replace the value at an existing key,
append otherwise (Python dict assignment, insertion order kept). -/
def cacheInsert (cache : List (Yaml × RawPrompt)) (k : Yaml) (v : RawPrompt) :
    List (Yaml × RawPrompt) :=
  if cache.any (fun kv => Yaml.beq kv.1 k) then
    cache.map (fun kv => if Yaml.beq kv.1 k then (kv.1, v) else kv)
  else cache ++ [(k, v)]

/-- One iteration of `_load_all`'s loop: parse and cache, or skip
silently on any exception. -/
def loadStep (cache : List (Yaml × RawPrompt)) (f : Str × Except Str Yaml) :
    List (Yaml × RawPrompt) :=
  match load_prompt f.1 f.2 with
  | .ok p => cacheInsert cache p.name p
  | .error _ => cache

/-- Embeds `PromptManager._load_all` over the discovered files. -/
def load_all (files : List (Str × Except Str Yaml)) : List (Yaml × RawPrompt) :=
  files.foldl loadStep []

/-- Transcription of C3's invariant, template part: a string that is
non-empty after trimming. -/
def templateNonblank : Yaml → Bool
  | .str s => !(pyStrip s).isEmpty
  | _ => false

/-- Transcription of C3's invariant, model part: a non-empty string. -/
def modelNonempty : Yaml → Bool
  | .str s => !s.isEmpty
  | _ => false

/-- Transcription of C3's invariant, token part: an integer `> 0`. -/
def tokensPositive : Yaml → Bool
  | .int n => 0 < n
  | _ => false

/-- Transcription of C3's full invariant on a loaded record. -/
def recordInvariant (p : RawPrompt) : Bool :=
  templateNonblank p.template && modelNonempty p.metadata.recommended_model &&
    tokensPositive p.metadata.expected_tokens

/-- The source file declares a non-blank string template, and its
metadata either omits the model / token fields (defaults apply) or
supplies a non-empty string / positive integer. -/
def declaredOk (parsed : Except Str Yaml) : Bool :=
  match parsed with
  | .ok (.map d) =>
    (match yFind d (S "template") with
     | some (.str s) => !(pyStrip s).isEmpty
     | _ => false) &&
    (match yGetD d (S "metadata") (.map []) with
     | .map md =>
       (match yFind md (S "recommended_model") with
        | none => true
        | some (.str s) => !s.isEmpty
        | some _ => false) &&
       (match yFind md (S "expected_tokens") with
        | none => true
        | some (.int n) => decide (0 < n)
        | some _ => false)
     | _ => true)
  | _ => false

/-! ## Format Validator: `PromptTester.validate_prompt_format`
(src/prompt_tester.py, lines 222-249) -/

/-- Embeds `"name" not in p` for one parameter entry: key membership for a
mapping, substring for a string, element equality for a list,
`TypeError` otherwise. -/
def pyContainsName : Yaml → Except Str Bool
  | .map m => .ok ((yFind m (S "name")).isSome)
  | .str s => .ok (occursIn (S "name") s)
  | .arr l => .ok (l.any (fun y => match y with | .str s => s == S "name" | _ => false))
  | _ => .error typeErr

/-- Decimal rendering of the parameter index (Python f-string `{i}`). -/
def natStr (n : Nat) : Str := (Nat.repr n).data

/-- The issue text `f"Parameter {i} missing 'name'"`. -/
def paramIssue (i : Nat) : Str :=
  S "Parameter " ++ natStr i ++ S " missing \x27name\x27"

/-- The three required fields, in check order. -/
def requiredFields : List Str := [S "name", S "template", S "category"]

/-- Lines 236-239: one issue per missing required field, in order. -/
def missingFieldIssues (d : List (Str × Yaml)) : List Str :=
  requiredFields.filterMap (fun f =>
    if (yFind d f).isSome then none else some (S "Missing required field: " ++ f))

/-- Lines 241-242: the template emptiness check.
`data["template"].strip()` raises `AttributeError` when the template
value is not a string. -/
def templateIssues (d : List (Str × Yaml)) : Except Str (List Str) :=
  match yFind d (S "template") with
  | none => .ok []
  | some (.str s) => .ok (if (pyStrip s).isEmpty then [S "Template is empty"] else [])
  | some _ => .error attrErr

/-- One step of the parameter scan: evaluate `"name" not in p` and
record an issue with the entry's position. -/
def paramCheck (ip : Nat × Yaml) : Except Str (Option Str) := do
  let b ← pyContainsName ip.2
  Except.ok (if b then none else some (paramIssue ip.1))

/-- Lines 244-247: every parameter entry must carry a name; issues name
the entry position. -/
def parameterIssues (d : List (Str × Yaml)) : Except Str (List Str) :=
  match yFind d (S "parameters") with
  | none => .ok []
  | some ps => do
    let l ← yamlIter ps
    let opts ← (l.enum).mapM paramCheck
    Except.ok (opts.filterMap id)

/-- Embeds `PromptTester.validate_prompt_format` on the parse outcome (the
file read and `yaml.safe_load` both sit inside the `try` of lines
228-231, so either failure yields the single "Invalid YAML" issue).
`Except.error` is an exception escaping to the caller (see C10). -/
def validate_prompt_format (parsed : Except Str Yaml) : Except Str (List Str) :=
  match parsed with
  | .error e => .ok [S "Invalid YAML: " ++ e]
  | .ok data =>
    match data with
    | .map d => do
      let tIssues ← templateIssues d
      let pIssues ← parameterIssues d
      Except.ok (missingFieldIssues d ++ tIssues ++ pIssues)
    | _ => .ok [S "Root element must be a mapping"]

/-- Every parameter entry (a mapping) includes a name field. -/
def paramsAllNamed (l : List Yaml) : Bool :=
  l.all (fun p => match p with
    | .map m => (yFind m (S "name")).isSome
    | _ => false)

/-- The parameters field, when present, is a list of entries that all
carry a name. -/
def paramsDeclOk (d : List (Str × Yaml)) : Bool :=
  match yFind d (S "parameters") with
  | none => true
  | some (.arr l) => paramsAllNamed l
  | some _ => false

/-- The template field is a string with non-whitespace content. -/
def templateDeclOk (d : List (Str × Yaml)) : Bool :=
  match yFind d (S "template") with
  | some (.str s) => !(pyStrip s).isEmpty
  | _ => false

/-- Transcription of C9's validity condition: the mapping has the three
required fields, the template has non-whitespace content, and every
parameter entry includes a name field. -/
def validConds (d : List (Str × Yaml)) : Bool :=
  (yFind d (S "name")).isSome && templateDeclOk d &&
    (yFind d (S "category")).isSome && paramsDeclOk d

/-! ## Theorems -/
theorem replaceFuel_fuel_eq (pat rep : Str) :
    ∀ (n m : Nat) (s : Str), s.length ≤ n → s.length ≤ m →
      replaceFuel pat rep n s = replaceFuel pat rep m s := by
  intro n
  induction n with
  | zero =>
    intro m s hn _
    have : s = [] := List.length_eq_zero.mp (Nat.le_zero.mp hn)
    subst this
    cases m <;> rfl
  | succ n ih =>
    intro m s hn hm
    cases s with
    | nil => cases m <;> rfl
    | cons c cs =>
      cases m with
      | zero => simp at hm
      | succ m =>
        simp only [replaceFuel]
        simp only [List.length_cons] at hn hm
        by_cases hc : pat ≠ [] ∧ leads pat (c :: cs) = true
        · rw [if_pos hc, if_pos hc]
          have hp : 0 < pat.length := List.length_pos.mpr hc.1
          have hd : ((c :: cs).drop pat.length).length ≤ n := by
            simp only [List.length_drop, List.length_cons]
            omega
          have hd2 : ((c :: cs).drop pat.length).length ≤ m := by
            simp only [List.length_drop, List.length_cons]
            omega
          rw [ih m _ hd hd2]
        · rw [if_neg hc, if_neg hc,
            ih m cs (by omega) (by omega)]

theorem leads_iff (p : Str) : ∀ s, leads p s = true ↔ ∃ t, s = p ++ t := by
  induction p with
  | nil => intro s; simp [leads]
  | cons a ps ih =>
    intro s
    cases s with
    | nil => simp [leads]
    | cons b ss =>
      simp only [leads, Bool.and_eq_true, decide_eq_true_eq, ih, List.cons_append]
      constructor
      · rintro ⟨rfl, t, rfl⟩
        exact ⟨t, rfl⟩
      · rintro ⟨t, ht⟩
        cases ht
        exact ⟨rfl, t, rfl⟩

theorem leads_self_append (p t : Str) : leads p (p ++ t) = true :=
  (leads_iff p (p ++ t)).mpr ⟨t, rfl⟩

theorem occursIn_of_leads {pat s : Str} (h : leads pat s = true) : occursIn pat s = true := by
  cases s with
  | nil => simpa [occursIn] using h
  | cons c cs => simp [occursIn, h]

theorem occursIn_cons_of (pat : Str) (c : Char) {cs : Str} (h : occursIn pat cs = true) :
    occursIn pat (c :: cs) = true := by
  simp [occursIn, h]

theorem occursIn_append_left (pat t : Str) (u : Str) (h : occursIn pat t = true) :
    occursIn pat (u ++ t) = true := by
  induction u with
  | nil => simpa using h
  | cons c cs ih => simp [occursIn, ih]

/-- Two distinct brace-free names, each closed by `'}'`, never align. -/
theorem leads_close_append (p : Str) : ∀ (q v : Str), braceFree p = true →
    braceFree q = true → p ≠ q → leads (p ++ ['}']) (q ++ '}' :: v) = false := by
  induction p with
  | nil =>
    intro q v _ hq hne
    cases q with
    | nil => exact absurd rfl hne
    | cons b qs =>
      simp only [braceFree, List.all_cons, Bool.and_eq_true, decide_eq_true_eq] at hq
      have hb : ('}' : Char) ≠ b := fun hh => hq.1.2 hh.symm
      simp [leads, hb]
  | cons a ps ih =>
    intro q v hp hq hne
    simp only [braceFree, List.all_cons, Bool.and_eq_true, decide_eq_true_eq] at hp
    cases q with
    | nil =>
      simp [leads, hp.1.2]
    | cons b qs =>
      simp only [braceFree, List.all_cons, Bool.and_eq_true, decide_eq_true_eq] at hq
      by_cases hab : a = b
      · subst hab
        have hne2 : ps ≠ qs := fun hh => hne (by rw [hh])
        have hih := ih qs v hp.2 hq.2 hne2
        simp only [List.cons_append, leads, Bool.and_eq_true, decide_eq_true_eq]
        simp [hih]
      · simp [leads, hab]

/-- A placeholder token of one brace-free name never starts where a
different brace-free name's token starts. -/
theorem leads_tok_tok {p q : Str} (v : Str) (hp : braceFree p = true)
    (hq : braceFree q = true) (hne : p ≠ q) : leads (tok p) (tok q ++ v) = false := by
  have : tok q ++ v = '{' :: (q ++ ['}'] ++ v) := by simp [tok]
  rw [this]
  simp only [tok, leads]
  simp [leads_close_append p q v hp hq hne]

theorem replaceL_nil (pat rep : Str) : replaceL pat rep [] = [] := rfl

theorem replaceL_cons_pos (pat rep : Str) (c : Char) (cs : Str)
    (h1 : pat ≠ []) (h2 : leads pat (c :: cs) = true) :
    replaceL pat rep (c :: cs) = rep ++ replaceL pat rep ((c :: cs).drop pat.length) := by
  show replaceFuel pat rep (c :: cs).length (c :: cs) = _
  simp only [List.length_cons, replaceFuel]
  rw [if_pos ⟨h1, h2⟩]
  congr 1
  apply replaceFuel_fuel_eq
  · have hp : 0 < pat.length := List.length_pos.mpr h1
    simp only [List.length_drop, List.length_cons]
    omega
  · exact Nat.le_refl _

theorem replaceL_cons_neg (pat rep : Str) (c : Char) (cs : Str)
    (h2 : ¬ (pat ≠ [] ∧ leads pat (c :: cs) = true)) :
    replaceL pat rep (c :: cs) = c :: replaceL pat rep cs := by
  show replaceFuel pat rep (c :: cs).length (c :: cs) = _
  simp only [List.length_cons, replaceFuel]
  rw [if_neg h2]
  rfl

theorem tok_ne_nil (p : Str) : tok p ≠ [] := by simp [tok]

/-- A brace-free run of characters is copied through `replaceL` verbatim:
the pattern token starts with `'{'` and so cannot match inside it. -/
theorem replaceL_copy (p rep : Str) : ∀ (m v : Str), m.all (fun c => ¬ c = '{') = true →
    replaceL (tok p) rep (m ++ v) = m ++ replaceL (tok p) rep v := by
  intro m
  induction m with
  | nil => simp
  | cons c ms ih =>
    intro v hm
    simp only [List.all_cons, Bool.and_eq_true, decide_eq_true_eq] at hm
    have hnl : leads (tok p) (c :: (ms ++ v)) = false := by
      have : ('{' : Char) ≠ c := fun hh => hm.1 hh.symm
      simp [tok, leads, this]
    rw [List.cons_append, replaceL_cons_neg _ _ _ _ (by simp [hnl]), ih v hm.2]
    rfl

/-- The token of a brace-free name `q` is copied through `replaceL`
whenever it sits at the front and the pattern names a different
brace-free parameter `p`. -/
theorem replaceL_tok_front {p q : Str} (rep : Str) (hp : braceFree p = true)
    (hq : braceFree q = true) (hne : p ≠ q) (v : Str) :
    replaceL (tok p) rep (tok q ++ v) = tok q ++ replaceL (tok p) rep v := by
  have hshape : tok q ++ v = '{' :: ((q ++ ['}']) ++ v) := by simp [tok]
  have hnl : leads (tok p) ('{' :: ((q ++ ['}']) ++ v)) = false := by
    rw [← hshape]; exact leads_tok_tok v hp hq hne
  have hall : (q ++ ['}']).all (fun c => ¬ c = '{') = true := by
    simp only [List.all_append, Bool.and_eq_true]
    refine ⟨?_, by simp⟩
    simp only [braceFree, List.all_eq_true, Bool.and_eq_true, decide_eq_true_eq] at hq ⊢
    exact fun c hc => (hq c hc).1
  rw [hshape, replaceL_cons_neg _ _ _ _
      (fun hcon => by rw [hnl] at hcon; exact Bool.false_ne_true hcon.2),
    replaceL_copy p rep _ v hall]
  simp [tok]

/-- The token of `'{' :: w` cannot occur inside a run of non-`'{'`
characters: any occurrence in `m ++ t` is an occurrence in `t`. -/
theorem occursIn_brace_skip (w : Str) : ∀ (m t : Str), m.all (fun c => ¬ c = '{') = true →
    occursIn ('{' :: w) (m ++ t) = true → occursIn ('{' :: w) t = true := by
  intro m
  induction m with
  | nil => intro t _ h; simpa using h
  | cons c ms ih =>
    intro t hm h
    simp only [List.all_cons, Bool.and_eq_true, decide_eq_true_eq] at hm
    simp only [List.cons_append, occursIn, Bool.or_eq_true] at h
    rcases h with h | h
    · exfalso
      have : ('{' : Char) ≠ c := fun hh => hm.1 hh.symm
      simp [leads, this] at h
    · exact ih t hm.2 h

/-- An occurrence of `tok q` inside `tok p ++ v` (distinct brace-free
names) lies entirely inside `v`. -/
theorem occursIn_tok_drop {p q : Str} (hp : braceFree p = true) (hq : braceFree q = true)
    (hne : p ≠ q) (v : Str) (h : occursIn (tok q) (tok p ++ v) = true) :
    occursIn (tok q) v = true := by
  have hshape : tok p ++ v = '{' :: ((p ++ ['}']) ++ v) := by simp [tok]
  rw [hshape] at h
  simp only [occursIn, Bool.or_eq_true] at h
  rcases h with h | h
  · exfalso
    rw [← hshape] at h
    obtain ⟨t, ht⟩ := (leads_iff _ _).mp h
    have := leads_tok_tok (q := p) (p := q) v hq hp (fun hh => hne hh.symm)
    rw [this] at h
    exact Bool.false_ne_true h
  · refine occursIn_brace_skip _ (p ++ ['}']) v ?_ h
    simp only [List.all_append, Bool.and_eq_true]
    refine ⟨?_, by simp⟩
    simp only [braceFree, List.all_eq_true, Bool.and_eq_true, decide_eq_true_eq] at hp ⊢
    exact fun c hc => (hp c hc).1

/-- Fuelled version of `occursIn_replaceL_tok` (induction on a length
bound). -/
theorem occursIn_replaceL_tok_aux {p q : Str} (rep : Str) (hp : braceFree p = true)
    (hq : braceFree q = true) (hne : p ≠ q) :
    ∀ (n : Nat) (s : Str), s.length ≤ n → occursIn (tok q) s = true →
      occursIn (tok q) (replaceL (tok p) rep s) = true := by
  intro n
  induction n with
  | zero =>
    intro s hs h
    have : s = [] := List.length_eq_zero.mp (Nat.le_zero.mp hs)
    subst this
    simp [occursIn, tok, leads] at h
  | succ n ih =>
    intro s hs h
    by_cases hl : leads (tok q) s = true
    · obtain ⟨t, rfl⟩ := (leads_iff _ _).mp hl
      rw [replaceL_tok_front rep hp hq hne t]
      exact occursIn_of_leads (leads_self_append _ _)
    · cases s with
      | nil => simp [occursIn, tok, leads] at h
      | cons c cs =>
        by_cases hm : leads (tok p) (c :: cs) = true
        · obtain ⟨t, hct⟩ := (leads_iff _ _).mp hm
          rw [replaceL_cons_pos _ _ _ _ (tok_ne_nil p) hm]
          have hdrop : (c :: cs).drop (tok p).length = t := by
            rw [hct, List.drop_left]
          rw [hdrop]
          have ht : occursIn (tok q) t = true :=
            occursIn_tok_drop hp hq hne t (hct ▸ h)
          have hlen : t.length ≤ n := by
            have := congrArg List.length hct
            simp [tok] at this
            simp only [List.length_cons] at hs
            omega
          exact occursIn_append_left _ _ rep (ih t hlen ht)
        · rw [replaceL_cons_neg _ _ _ _ (by simp [hm])]
          have hcs : occursIn (tok q) cs = true := by
            simp only [occursIn, Bool.or_eq_true] at h
            rcases h with h | h
            · exact absurd h hl
            · exact h
          have hlen : cs.length ≤ n := by
            simp only [List.length_cons] at hs
            omega
          exact occursIn_cons_of _ c (ih cs hlen hcs)

/-- Replacing the token of parameter `p` preserves every occurrence of
the token of any other brace-free name `q`. -/
theorem occursIn_replaceL_tok {p q : Str} (rep : Str) (hp : braceFree p = true)
    (hq : braceFree q = true) (hne : p ≠ q) (s : Str)
    (h : occursIn (tok q) s = true) :
    occursIn (tok q) (replaceL (tok p) rep s) = true :=
  occursIn_replaceL_tok_aux rep hp hq hne s.length s (Nat.le_refl _) h

theorem renderSpec_cons_ok (t : Str) (p : PromptParameter) (ps : List PromptParameter)
    (k : List (Str × Str)) (h : unsatisfied k p = false) :
    renderSpec t (p :: ps) k = renderSpec (substStep k t p) ps k := by
  simp [renderSpec, List.find?, h]

theorem renderSpec_cons_bad (t : Str) (p : PromptParameter) (ps : List PromptParameter)
    (k : List (Str × Str)) (h : unsatisfied k p = true) :
    renderSpec t (p :: ps) k = .error (missingMsg p.name) := by
  simp [renderSpec, List.find?, h]

theorem render_eq_renderSpec (params : List PromptParameter) :
    ∀ (template : Str) (kwargs : List (Str × Str)),
      render template params kwargs = renderSpec template params kwargs := by
  induction params with
  | nil => intro t k; rfl
  | cons p ps ih =>
    intro t k
    rcases hl : lookupS k p.name with _ | v
    · by_cases hrd : (p.required && p.default.isNone) = true
      · have hu : unsatisfied k p = true := by simp [unsatisfied, hl, hrd]
        rw [renderSpec_cons_bad t p ps k hu]
        simp only [render, renderGo, hl]
        rw [if_pos hrd]
      · have hu : unsatisfied k p = false := by
          simp only [unsatisfied, hl, Option.isNone_none, Bool.true_and]
          exact Bool.eq_false_iff.mpr hrd
        rw [renderSpec_cons_ok t p ps k hu]
        rcases hd : p.default with _ | d
        · have hsub : substStep k t p = t := by simp [substStep, hl, hd]
          rw [hsub]
          simp only [render, renderGo, hl, hd]
          rw [if_neg (by simp only [hd] at hrd; exact hrd)]
          exact ih t k
        · have hsub : substStep k t p = replaceL (tok p.name) d t := by
            simp [substStep, hl, hd]
          rw [hsub]
          simp only [render, renderGo, hl, hd]
          rw [if_neg (by simp only [hd] at hrd; exact hrd)]
          exact ih (replaceL (tok p.name) d t) k
    · have hu : unsatisfied k p = false := by simp [unsatisfied, hl]
      rw [renderSpec_cons_ok t p ps k hu]
      rw [show substStep k t p = replaceL (tok p.name) v t by simp [substStep, hl]]
      simp only [render, renderGo, hl]
      exact ih (replaceL (tok p.name) v t) k

theorem render_keeps_undeclared (params : List PromptParameter) :
    ∀ (template : Str) (kwargs : List (Str × Str)) (q out : Str),
      braceFree q = true →
      (∀ p ∈ params, braceFree p.name = true ∧ p.name ≠ q) →
      occursIn (tok q) template = true →
      render template params kwargs = Except.ok out →
      occursIn (tok q) out = true := by
  induction params with
  | nil =>
    intro t k q out _ _ hocc hr
    simp only [render, renderGo] at hr
    cases hr
    exact hocc
  | cons p ps ih =>
    intro t k q out hq hps hocc hr
    obtain ⟨hpname, hpne⟩ := hps p (by simp)
    have hps' : ∀ r ∈ ps, braceFree r.name = true ∧ r.name ≠ q := by
      intro r hr2
      exact hps r (by simp [hr2])
    rcases hl : lookupS k p.name with _ | v
    · simp only [render, renderGo, hl] at hr
      by_cases hrd : (p.required && p.default.isNone) = true
      · rw [if_pos hrd] at hr
        cases hr
      · rw [if_neg hrd] at hr
        rcases hd : p.default with _ | d
        · rw [hd] at hr
          exact ih t k q out hq hps' hocc hr
        · rw [hd] at hr
          exact ih (replaceL (tok p.name) d t) k q out hq hps'
            (occursIn_replaceL_tok d hpname hq hpne t hocc) hr
    · simp only [render, renderGo, hl] at hr
      exact ih (replaceL (tok p.name) v t) k q out hq hps'
        (occursIn_replaceL_tok v hpname hq hpne t hocc) hr

/-- Claim C1: `render` processes the declared parameters in declaration
order; a supplied value replaces every literal occurrence of `{name}`;
a required parameter with no default and no supplied value makes
`render` fail with a `MissingParameter` error naming the first such
parameter, returning no partially rendered output; a default fills the
placeholder; an optional unsupplied parameter without default is left
untouched; and the placeholder of any name that is not a declared
parameter remains verbatim in a successful output. -/
theorem render_contract :
    (∀ (template : Str) (params : List PromptParameter) (kwargs : List (Str × Str)),
      render template params kwargs = renderSpec template params kwargs) ∧
    (∀ (template : Str) (params : List PromptParameter) (kwargs : List (Str × Str))
      (q out : Str), braceFree q = true →
      (∀ p ∈ params, braceFree p.name = true ∧ p.name ≠ q) →
      occursIn (tok q) template = true →
      render template params kwargs = Except.ok out →
      occursIn (tok q) out = true) :=
  ⟨fun t ps k => render_eq_renderSpec ps t k,
   fun t ps k q out hq hps hocc hr => render_keeps_undeclared ps t k q out hq hps hocc hr⟩

/-- Witness for C1 at concrete inputs: the spec example template with an
extra undeclared placeholder `{undeclared}`, which survives rendering
verbatim while `{document}` is substituted. -/
theorem render_contract_witness :
    render (S "Summarize: {document} {undeclared}")
        [{ name := S "document" }] [(S "document", S "Hello world")] =
      Except.ok (S "Summarize: Hello world {undeclared}") ∧
    braceFree (S "undeclared") = true ∧
    occursIn (tok (S "undeclared")) (S "Summarize: {document} {undeclared}") = true ∧
    occursIn (tok (S "undeclared")) (S "Summarize: Hello world {undeclared}") = true := by
  refine ⟨by rfl, by decide, by decide, ?_⟩
  exact render_contract.2 (S "Summarize: {document} {undeclared}")
    [{ name := S "document" }] [(S "document", S "Hello world")]
    (S "undeclared") (S "Summarize: Hello world {undeclared}")
    (by decide) (by decide) (by decide) (by rfl)

theorem lenBonus_nonneg (output : Str) : 0 ≤ lenBonus output := by
  unfold lenBonus
  split <;> split <;> norm_num

theorem lenBonus_le (output : Str) : lenBonus output ≤ 3/2 := by
  unfold lenBonus
  split <;> split <;> norm_num

theorem structBonus_nonneg (output : Str) : 0 ≤ structBonus output := by
  unfold structBonus
  split <;> norm_num

theorem structBonus_le (output : Str) : structBonus output ≤ 1/2 := by
  unfold structBonus
  split <;> norm_num

theorem matchBonus_nonneg (expected missing : List Str)
    (h : missing.length ≤ expected.length) : 0 ≤ matchBonus expected missing := by
  unfold matchBonus
  split
  · have hn : 0 < (expected.length : ℚ) := by
      rename_i hne
      have := List.length_pos.mpr hne
      exact_mod_cast this
    have hnum : 0 ≤ (expected.length : ℚ) - missing.length := by
      have : (missing.length : ℚ) ≤ expected.length := by exact_mod_cast h
      linarith
    positivity
  · exact le_refl 0

theorem matchBonus_le (expected missing : List Str) :
    matchBonus expected missing ≤ 3 := by
  unfold matchBonus
  split
  · have hn : 0 < (expected.length : ℚ) := by
      rename_i hne
      have := List.length_pos.mpr hne
      exact_mod_cast this
    have hfrac : ((expected.length : ℚ) - missing.length) / expected.length ≤ 1 := by
      rw [div_le_one hn]
      have : (0 : ℚ) ≤ missing.length := by positivity
      linarith
    nlinarith
  · norm_num

theorem matchBonus_full (expected : List Str) (h : expected ≠ []) :
    matchBonus expected [] = 3 := by
  have hn : 0 < (expected.length : ℚ) := by
    have := List.length_pos.mpr h
    exact_mod_cast this
  simp only [matchBonus, if_pos h, List.length_nil, Nat.cast_zero, sub_zero]
  field_simp

theorem matchBonus_lt_full (expected missing : List Str) (h : expected ≠ [])
    (hm : missing ≠ []) : matchBonus expected missing < 3 := by
  have hn : 0 < (expected.length : ℚ) := by
    have := List.length_pos.mpr h
    exact_mod_cast this
  have hm1 : (1 : ℚ) ≤ missing.length := by
    have := List.length_pos.mpr hm
    exact_mod_cast this
  simp only [matchBonus, if_pos h]
  have hfrac : ((expected.length : ℚ) - missing.length) / expected.length < 1 := by
    rw [div_lt_one hn]
    linarith
  nlinarith

/-- Claim C4: with `missing` a sublist of `expected`, an empty or
whitespace-only output scores exactly 0, and a non-empty output scores
at least 5.0 and at most 10.0. -/
theorem score_quality_bounds (output : Str) (expected missing : List Str)
    (hsub : missing.Sublist expected) :
    (pyStrip output = [] → score_quality output expected missing = 0) ∧
    (pyStrip output ≠ [] →
      5 ≤ score_quality output expected missing ∧
        score_quality output expected missing ≤ 10) := by
  constructor
  · intro h
    simp [score_quality, h]
  · intro h
    rw [score_quality, if_neg h]
    have hlen := hsub.length_le
    have h1 := lenBonus_nonneg output
    have h2 := matchBonus_nonneg expected missing hlen
    have h3 := structBonus_nonneg output
    constructor
    · apply le_min
      · linarith
      · norm_num
    · exact min_le_right _ _

/-- Witness for C4 at concrete inputs. -/
theorem score_quality_bounds_witness :
    ([S "kw"] : List Str).Sublist [S "kw", S "other"] ∧
    score_quality [] [S "kw", S "other"] [S "kw"] = 0 ∧
    5 ≤ score_quality (S "short answer") [S "kw", S "other"] [S "kw"] ∧
    score_quality (S "short answer") [S "kw", S "other"] [S "kw"] ≤ 10 := by
  have hsub : ([S "kw"] : List Str).Sublist [S "kw", S "other"] :=
    List.Sublist.cons₂ _ (List.nil_sublist _)
  refine ⟨hsub, ?_, ?_, ?_⟩
  · exact (score_quality_bounds [] [S "kw", S "other"] [S "kw"] hsub).1 (by decide)
  · exact ((score_quality_bounds (S "short answer") [S "kw", S "other"] [S "kw"] hsub).2
      (by decide)).1
  · exact ((score_quality_bounds (S "short answer") [S "kw", S "other"] [S "kw"] hsub).2
      (by decide)).2

/-- Claim C5: for a fixed non-empty output and non-empty expected set,
the score with zero missing keywords is strictly greater than with at
least one missing keyword; the `10.0` clamp never collapses the two. -/
theorem score_quality_keyword_strict (output : Str) (expected missing : List Str)
    (hout : pyStrip output ≠ []) (hexp : expected ≠ []) (hmiss : missing ≠ []) :
    score_quality output expected missing < score_quality output expected [] := by
  rw [score_quality, if_neg hout, score_quality, if_neg hout]
  have hB1 := lenBonus_le output
  have hB2 := structBonus_le output
  have hB1n := lenBonus_nonneg output
  have hB2n := structBonus_nonneg output
  have hfull := matchBonus_full expected hexp
  have hlt := matchBonus_lt_full expected missing hexp hmiss
  have hclampL : 5 + lenBonus output + matchBonus expected [] + structBonus output ≤ 10 := by
    rw [hfull]; linarith
  have hclampR : 5 + lenBonus output + matchBonus expected missing + structBonus output ≤ 10 := by
    linarith
  rw [min_eq_left hclampL, min_eq_left hclampR]
  linarith

/-- Witness for C5 at the concrete inputs of the repository's own
quality-scorer regression test. -/
theorem score_quality_keyword_strict_witness :
    pyStrip (S "test output") ≠ [] ∧
    ([S "test", S "missing"] : List Str) ≠ [] ∧
    ([S "missing"] : List Str) ≠ [] ∧
    score_quality (S "test output") [S "test", S "missing"] [S "missing"] <
      score_quality (S "test output") [S "test", S "missing"] [] := by
  refine ⟨by decide, by decide, by decide, ?_⟩
  exact score_quality_keyword_strict (S "test output") [S "test", S "missing"]
    [S "missing"] (by decide) (by decide) (by decide)

theorem leads_append_of_leads {m u : Str} (t : Str) (h : leads m u = true) :
    leads m (u ++ t) = true := by
  obtain ⟨r, rfl⟩ := (leads_iff _ _).mp h
  rw [List.append_assoc]
  exact leads_self_append m (r ++ t)

theorem occursIn_append_right {m u : Str} (t : Str) (h : occursIn m u = true) :
    occursIn m (u ++ t) = true := by
  induction u with
  | nil =>
    simp only [occursIn] at h
    have : m = [] := by
      cases m with
      | nil => rfl
      | cons a ms => simp [leads] at h
    subst this
    cases t with
    | nil => simpa using h
    | cons c cs => simp [occursIn, leads]
  | cons c cs ih =>
    simp only [occursIn, Bool.or_eq_true] at h
    rcases h with h | h
    · exact occursIn_of_leads (leads_append_of_leads t h)
    · exact occursIn_cons_of _ c (ih h)

/-- Any line produced by `splitLinesAux s acc` that starts with `m`
yields an occurrence of `m` in the full text `acc.reverse ++ s`. -/
theorem splitLinesAux_leads_occursIn (m : Str) :
    ∀ (s acc : Str), ((splitLinesAux s acc).any (fun l => leads m l)) = true →
      occursIn m (acc.reverse ++ s) = true := by
  intro s
  induction s with
  | nil =>
    intro acc h
    simp only [splitLinesAux, List.any_cons, List.any_nil, Bool.or_false] at h
    simpa using occursIn_of_leads h
  | cons c cs ih =>
    intro acc h
    simp only [splitLinesAux] at h
    by_cases hc : c = '\n'
    · rw [if_pos hc] at h
      simp only [List.any_cons, Bool.or_eq_true] at h
      rcases h with h | h
      · exact occursIn_append_right _ (occursIn_of_leads h)
      · have := ih [] h
        simp only [List.reverse_nil, List.nil_append] at this
        have h2 : occursIn m (c :: cs) = true := occursIn_cons_of _ c this
        exact occursIn_append_left _ _ acc.reverse h2
    · rw [if_neg hc] at h
      have := ih (c :: acc) h
      simp only [List.reverse_cons] at this
      rw [show acc.reverse ++ c :: cs = (acc.reverse ++ [c]) ++ cs by simp]
      exact this

theorem lineStartMarker_hasMarker (output : Str)
    (h : lineStartMarker output = true) : hasMarker output = true := by
  simp only [lineStartMarker, List.any_eq_true] at h
  obtain ⟨l, hl, hm⟩ := h
  simp only [markers, List.any_eq_true] at hm
  obtain ⟨m, hmm, hlm⟩ := hm
  simp only [hasMarker, markers, List.any_eq_true]
  refine ⟨m, hmm, ?_⟩
  have : ((splitLines output).any (fun l2 => leads m l2)) = true := by
    simp only [List.any_eq_true]
    exact ⟨l, hl, hlm⟩
  have := splitLinesAux_leads_occursIn m output [] this
  simpa using this

/-- Claim C6 counterexample: the output `"see section 1.2"` has no line
starting with a structural marker, yet the substring `"1."` triggers the
+0.5 structure bonus (score 5.5 rather than the bare base 5). -/
theorem score_struct_cex :
    lineStartMarker (S "see section 1.2") = false ∧
    hasMarker (S "see section 1.2") = true ∧
    score_quality (S "see section 1.2") [] [] = 11/2 ∧
    score_quality (S "see section ten") [] [] = 5 := by
  refine ⟨by decide, by decide, ?_, ?_⟩
  · rw [score_quality, if_neg (by decide)]
    rw [show lenBonus (S "see section 1.2") = 0 from by
      rw [lenBonus, if_neg (by decide), if_neg (by decide)]; norm_num]
    rw [show matchBonus [] [] = 0 from by norm_num [matchBonus]]
    rw [show structBonus (S "see section 1.2") = 1/2 from by
      rw [structBonus, if_pos (by decide)]]
    norm_num
  · rw [score_quality, if_neg (by decide)]
    rw [show lenBonus (S "see section ten") = 0 from by
      rw [lenBonus, if_neg (by decide), if_neg (by decide)]; norm_num]
    rw [show matchBonus [] [] = 0 from by norm_num [matchBonus]]
    rw [show structBonus (S "see section ten") = 0 from by
      rw [structBonus, if_neg (by decide)]]
    norm_num

/-- Claim C6 (amended): for a non-empty output, the +0.5 structure bonus
is applied exactly when one of `"- "`, `"* "`, `"1."`, `"## "` occurs as
a substring anywhere in the output (not only at the start of a line);
a line starting with a marker is a special case of such an occurrence. -/
theorem score_struct_anywhere (output : Str) (expected missing : List Str)
    (h : pyStrip output ≠ []) :
    score_quality output expected missing =
      min (5 + lenBonus output + matchBonus expected missing +
        (if hasMarker output then (1 : ℚ)/2 else 0)) 10 ∧
    (lineStartMarker output = true → hasMarker output = true) := by
  constructor
  · rw [score_quality, if_neg h, structBonus]
  · exact lineStartMarker_hasMarker output

/-- Witness for the amended C6 at a concrete input. -/
theorem score_struct_anywhere_witness :
    pyStrip (S "- item") ≠ [] ∧
    score_quality (S "- item") [] [] =
      min (5 + lenBonus (S "- item") + matchBonus [] [] +
        (if hasMarker (S "- item") then (1 : ℚ)/2 else 0)) 10 ∧
    (lineStartMarker (S "- item") = true → hasMarker (S "- item") = true) := by
  refine ⟨by decide, ?_, ?_⟩
  · exact (score_struct_anywhere (S "- item") [] [] (by decide)).1
  · exact (score_struct_anywhere (S "- item") [] [] (by decide)).2

theorem test_prompt_of_prepare (apiKey : Option Str) (svc : Yaml → Except Str Str)
    (lat : ℚ) (stem : Str) (parsed : Except Str Yaml) (ti : Option (List (Str × Str)))
    (ma : Option Str) (p : Prepared) (hp : prepare stem parsed ti ma = Except.ok p) :
    test_prompt apiKey svc lat stem parsed ti ma = Except.ok (tryBlock apiKey svc lat p) := by
  simp [test_prompt, hp]

theorem batch_mapM_ok (apiKey : Option Str) (svc : Yaml → Except Str Str) (lat : ℚ)
    (ma : Option Str) :
    ∀ files : List (Str × Except Str Yaml),
      (∀ f ∈ files, ∃ p, prepare f.1 f.2 none ma = Except.ok p) →
      ∃ rs : List TestResult,
        files.mapM (fun f => test_prompt apiKey svc lat f.1 f.2 none ma) = Except.ok rs ∧
          rs.length = files.length := by
  intro files
  induction files with
  | nil => intro _; exact ⟨[], rfl, rfl⟩
  | cons f rest ih =>
    intro h
    obtain ⟨p, hp⟩ := h f (by simp)
    obtain ⟨rs, hrs, hlen⟩ := ih (fun g hg => h g (by simp [hg]))
    refine ⟨tryBlock apiKey svc lat p :: rs, ?_, by simp [hlen]⟩
    rw [List.mapM_cons, test_prompt_of_prepare apiKey svc lat f.1 f.2 none ma p hp]
    rw [show (rest.mapM (fun f => test_prompt apiKey svc lat f.1 f.2 none ma)) =
      Except.ok rs from hrs]
    rfl

/-- Claim C2 counterexample: a file whose YAML parse fails makes
`test_prompt` itself raise (the read/parse of lines 96-97 happens
outside the `try` block), so not every error is captured in-band, and a
batch over a directory containing such a file aborts with that error
instead of producing one result per file. -/
theorem test_prompt_parse_error_escapes :
    test_prompt none (fun _ => Except.error (S "network down")) 0 (S "bad")
        (Except.error (S "Invalid YAML")) none none =
      Except.error (S "Invalid YAML") ∧
    test_batch none (fun _ => Except.error (S "network down")) 0
        [(S "bad", Except.error (S "Invalid YAML"))] none =
      Except.error (S "Invalid YAML") :=
  ⟨rfl, rfl⟩

/-- Claim C2 (amended): once the pre-call phase of `test_prompt` (file
read, parse, field extraction, raw render — all outside the `try`)
succeeds, every error of the service-invocation phase is captured
in-band as a `TestResult` with zero quality score, zero latency, zero
token count, `passed = false`, and the failure description verbatim in
the error field; `test_prompt` then never raises, and a batch over
files whose pre-call phase succeeds completes with one result per
file.  Pre-call errors, by contrast, propagate to the caller (see the
counterexample). -/
theorem test_harness_fail_soft :
    (∀ (n i : Yaml) (e : Str), (errorResult n i e).quality_score = 0 ∧
      (errorResult n i e).latency_ms = 0 ∧ (errorResult n i e).token_count = 0 ∧
      (errorResult n i e).passed = false ∧ (errorResult n i e).error = some e) ∧
    (∀ (apiKey : Option Str) (svc : Yaml → Except Str Str) (lat : ℚ) (stem : Str)
      (parsed : Except Str Yaml) (ti : Option (List (Str × Str))) (ma : Option Str)
      (p : Prepared) (k : Str) (e : Str),
      prepare stem parsed ti ma = Except.ok p → apiKey = some k →
      svc p.rendered = Except.error e →
      test_prompt apiKey svc lat stem parsed ti ma =
        Except.ok (errorResult p.prompt_name p.input_data e)) ∧
    (∀ (apiKey : Option Str) (svc : Yaml → Except Str Str) (lat : ℚ) (stem : Str)
      (parsed : Except Str Yaml) (ti : Option (List (Str × Str))) (ma : Option Str)
      (p : Prepared), prepare stem parsed ti ma = Except.ok p →
      ∃ r, test_prompt apiKey svc lat stem parsed ti ma = Except.ok r) ∧
    (∀ (apiKey : Option Str) (svc : Yaml → Except Str Str) (lat : ℚ) (ma : Option Str)
      (files : List (Str × Except Str Yaml)),
      (∀ f ∈ files, ∃ p, prepare f.1 f.2 none ma = Except.ok p) →
      ∃ b, test_batch apiKey svc lat files ma = Except.ok b ∧
        b.results.length = files.length ∧ b.total = files.length) := by
  refine ⟨fun n i e => ⟨rfl, rfl, rfl, rfl, rfl⟩, ?_, ?_, ?_⟩
  · intro apiKey svc lat stem parsed ti ma p k e hp hk hsvc
    subst hk
    rw [test_prompt_of_prepare _ svc lat stem parsed ti ma p hp]
    simp [tryBlock, get_client, hsvc]
  · intro apiKey svc lat stem parsed ti ma p hp
    exact ⟨tryBlock apiKey svc lat p, test_prompt_of_prepare apiKey svc lat stem parsed ti ma p hp⟩
  · intro apiKey svc lat ma files h
    obtain ⟨rs, hrs, hlen⟩ := batch_mapM_ok apiKey svc lat ma files h
    refine ⟨⟨rs.length, (rs.filter (fun r => r.passed)).length,
      rs.length - (rs.filter (fun r => r.passed)).length, rs,
      (if !rs.isEmpty then (rs.map (fun r => r.quality_score)).sum / rs.length else 0),
      (if !rs.isEmpty then (rs.map (fun r => r.latency_ms)).sum / rs.length else 0)⟩,
      ?_, hlen, hlen⟩
    rw [test_batch, hrs]
    rfl

/-- Witness for the amended C2 at a concrete record file and failing
service. -/
theorem test_harness_fail_soft_witness :
    prepare (S "t")
        (Except.ok (.map [(S "name", .str (S "demo")), (S "template", .str (S "Hi"))]))
        none none =
      Except.ok ⟨.str (S "demo"), .map [], .arr [], .str (S "Hi"), .str defaultModel,
        .flt (7/10), .int 1024⟩ ∧
    test_prompt (some (S "k")) (fun _ => Except.error (S "boom")) 0 (S "t")
        (Except.ok (.map [(S "name", .str (S "demo")), (S "template", .str (S "Hi"))]))
        none none =
      Except.ok (errorResult (.str (S "demo")) (.map []) (S "boom")) := by
  refine ⟨rfl, ?_⟩
  exact test_harness_fail_soft.2.1 (some (S "k")) (fun _ => Except.error (S "boom")) 0
    (S "t") (Except.ok (.map [(S "name", .str (S "demo")), (S "template", .str (S "Hi"))]))
    none none
    ⟨.str (S "demo"), .map [], .arr [], .str (S "Hi"), .str defaultModel,
      .flt (7/10), .int 1024⟩
    (S "k") (S "boom") rfl rfl rfl

/-- Claim C7 counterexample: an explicitly supplied empty test-input
mapping is falsy in Python (`if test_input:`), so the harness falls
back to the first example's input AND inherits its expected keywords,
contrary to the claim that an explicit input is used as given and
inherits nothing. -/
theorem resolve_inputs_empty_dict_cex :
    resolveInput (some [])
        (.arr [.map [(S "input", .map [(S "a", .str (S "b"))]),
          (S "expected_output_contains", .arr [.str (S "kw")])]]) =
      Except.ok (.map [(S "a", .str (S "b"))]) ∧
    resolveExpected (some [])
        (.arr [.map [(S "input", .map [(S "a", .str (S "b"))]),
          (S "expected_output_contains", .arr [.str (S "kw")])]]) =
      Except.ok (.arr [.str (S "kw")]) :=
  ⟨rfl, rfl⟩

/-- Claim C7 (amended): a NON-EMPTY explicit test input is used as the
input set and inherits no expected keywords; an absent or explicitly
EMPTY input with a first example that is a mapping uses that example's
`input` and `expected_output_contains` (an explicit empty mapping
behaves like no input at all); with a falsy examples value, the input
set is empty and no keywords are expected. -/
theorem resolve_inputs_contract :
    (∀ (ti : List (Str × Str)) (examples : Yaml), ti ≠ [] →
      resolveInput (some ti) examples =
        Except.ok (.map (ti.map (fun kv => (kv.1, Yaml.str kv.2)))) ∧
      resolveExpected (some ti) examples = Except.ok (.arr [])) ∧
    (∀ (ti : Option (List (Str × Str))) (rest : List Yaml) (m : List (Str × Yaml)),
      (ti = none ∨ ti = some []) →
      resolveInput ti (.arr (.map m :: rest)) =
        Except.ok (yGetD m (S "input") (.map [])) ∧
      resolveExpected ti (.arr (.map m :: rest)) =
        Except.ok (yGetD m (S "expected_output_contains") (.arr []))) ∧
    (∀ (ti : Option (List (Str × Str))) (ex : Yaml), (ti = none ∨ ti = some []) →
      yTruthy ex = false →
      resolveInput ti ex = Except.ok (.map []) ∧
      resolveExpected ti ex = Except.ok (.arr [])) := by
  refine ⟨?_, ?_, ?_⟩
  · intro ti examples hne
    constructor
    · simp [resolveInput, hne]
    · rcases ti with _ | ⟨kv, rest⟩
      · exact absurd rfl hne
      · simp [resolveExpected]
  · intro ti rest m hti
    rcases hti with rfl | rfl
    · exact ⟨rfl, rfl⟩
    · exact ⟨rfl, rfl⟩
  · intro ti ex hti hex
    rcases hti with rfl | rfl
    · exact ⟨by simp [resolveInput, resolveInputFromExamples, hex],
        by simp [resolveExpected, hex]⟩
    · exact ⟨by simp [resolveInput, resolveInputFromExamples, hex],
        by simp [resolveExpected, hex]⟩

/-- Witness for the amended C7 at concrete inputs. -/
theorem resolve_inputs_contract_witness :
    ([(S "x", S "y")] : List (Str × Str)) ≠ [] ∧
    resolveInput (some [(S "x", S "y")]) (.arr [.map [(S "input", .map [])]]) =
      Except.ok (.map [(S "x", .str (S "y"))]) ∧
    resolveExpected (some [(S "x", S "y")]) (.arr [.map [(S "input", .map [])]]) =
      Except.ok (.arr []) := by
  refine ⟨by simp, ?_, ?_⟩
  · exact (resolve_inputs_contract.1 [(S "x", S "y")]
      (.arr [.map [(S "input", .map [])]]) (by simp)).1
  · exact (resolve_inputs_contract.1 [(S "x", S "y")]
      (.arr [.map [(S "input", .map [])]]) (by simp)).2

/-- Claim C8 counterexample: with no credential configured and a service
that would even succeed, `test_prompt` returns a normal in-band failed
result carrying the configuration message — nothing is raised to the
caller of the test operation. -/
theorem config_error_inband_cex :
    test_prompt none (fun _ => Except.ok (S "fine")) 0 (S "t")
        (Except.ok (.map [(S "name", .str (S "demo")), (S "template", .str (S "Hi"))]))
        none none =
      Except.ok (errorResult (.str (S "demo")) (.map []) configMsg) :=
  rfl

/-- Claim C8 (amended): `_get_client` does raise the configuration error
eagerly when no credential is configured — before any service
invocation, so `test_prompt`'s outcome is independent of the service
behaviour — but `test_prompt` catches it in its `try` block and
surfaces it as an in-band failed `TestResult`, not as an exception to
the caller of the test operation. -/
theorem config_error_contract :
    get_client none = Except.error configMsg ∧
    (∀ (svc svc2 : Yaml → Except Str Str) (lat : ℚ) (stem : Str)
      (parsed : Except Str Yaml) (ti : Option (List (Str × Str))) (ma : Option Str)
      (p : Prepared), prepare stem parsed ti ma = Except.ok p →
      test_prompt none svc lat stem parsed ti ma =
        Except.ok (errorResult p.prompt_name p.input_data configMsg) ∧
      test_prompt none svc lat stem parsed ti ma =
        test_prompt none svc2 lat stem parsed ti ma) := by
  refine ⟨rfl, ?_⟩
  intro svc svc2 lat stem parsed ti ma p hp
  constructor
  · rw [test_prompt_of_prepare none svc lat stem parsed ti ma p hp]
    rfl
  · rw [test_prompt_of_prepare none svc lat stem parsed ti ma p hp,
      test_prompt_of_prepare none svc2 lat stem parsed ti ma p hp]
    rfl

/-- Witness for the amended C8 at a concrete record file. -/
theorem config_error_contract_witness :
    prepare (S "t")
        (Except.ok (.map [(S "name", .str (S "demo")), (S "template", .str (S "Hi"))]))
        none none =
      Except.ok ⟨.str (S "demo"), .map [], .arr [], .str (S "Hi"), .str defaultModel,
        .flt (7/10), .int 1024⟩ ∧
    test_prompt none (fun _ => Except.ok (S "fine")) 0 (S "t")
        (Except.ok (.map [(S "name", .str (S "demo")), (S "template", .str (S "Hi"))]))
        none none =
      Except.ok (errorResult (.str (S "demo")) (.map []) configMsg) := by
  refine ⟨rfl, ?_⟩
  exact (config_error_contract.2 (fun _ => Except.ok (S "fine"))
    (fun _ => Except.ok (S "fine")) 0 (S "t")
    (Except.ok (.map [(S "name", .str (S "demo")), (S "template", .str (S "Hi"))]))
    none none
    ⟨.str (S "demo"), .map [], .arr [], .str (S "Hi"), .str defaultModel,
      .flt (7/10), .int 1024⟩ rfl).1

theorem exBind_ok {α β : Type} (a : α) (f : α → Except Str β) :
    (Except.ok a >>= f) = f a := rfl

theorem exBind_error {α β : Type} (e : Str) (f : α → Except Str β) :
    ((Except.error e : Except Str α) >>= f) = Except.error e := rfl

theorem asMap_ok (d : List (Str × Yaml)) : asMap (.map d) = Except.ok d := rfl

theorem cacheInsert_mem {cache : List (Yaml × RawPrompt)} {k : Yaml} {v : RawPrompt}
    {kp : Yaml × RawPrompt} (h : kp ∈ cacheInsert cache k v) :
    kp ∈ cache ∨ kp.2 = v := by
  unfold cacheInsert at h
  split at h
  · rw [List.mem_map] at h
    obtain ⟨kv, hkv, heq⟩ := h
    by_cases hb : Yaml.beq kv.1 k = true
    · rw [if_pos hb] at heq
      right
      rw [← heq]
    · rw [if_neg hb] at heq
      left
      rw [← heq]
      exact hkv
  · rw [List.mem_append] at h
    rcases h with h | h
    · exact Or.inl h
    · right
      rw [List.mem_singleton] at h
      rw [h]

theorem load_all_mem :
    ∀ (files : List (Str × Except Str Yaml)) (cache : List (Yaml × RawPrompt))
      (kp : Yaml × RawPrompt), kp ∈ files.foldl loadStep cache →
      kp ∈ cache ∨ ∃ f ∈ files, load_prompt f.1 f.2 = Except.ok kp.2 := by
  intro files
  induction files with
  | nil => intro cache kp h; exact Or.inl h
  | cons f rest ih =>
    intro cache kp h
    simp only [List.foldl_cons] at h
    rcases ih (loadStep cache f) kp h with hc | ⟨g, hg, hl⟩
    · unfold loadStep at hc
      cases hload : load_prompt f.1 f.2 with
      | ok p =>
        rw [hload] at hc
        rcases cacheInsert_mem hc with h1 | h2
        · exact Or.inl h1
        · exact Or.inr ⟨f, by simp, by rw [hload, h2]⟩
      | error e =>
        rw [hload] at hc
        exact Or.inl hc
    · exact Or.inr ⟨g, by simp [hg], hl⟩

theorem loadMetadata_map (md : List (Str × Yaml)) :
    loadMetadata (.map md) = Except.ok
      ⟨yGetD md (S "recommended_model") (.str defaultModel),
       yGetD md (S "expected_tokens") (.int 500),
       yGetD md (S "temperature") (.flt (7/10)),
       yGetD md (S "tags") (.arr []), yGetD md (S "max_tokens") .null⟩ := rfl

theorem loadMetadata_shape (y : Yaml) (m : RawMetadata)
    (h : loadMetadata y = Except.ok m) :
    ∃ md, y = .map md ∧
      m.recommended_model = yGetD md (S "recommended_model") (.str defaultModel) ∧
      m.expected_tokens = yGetD md (S "expected_tokens") (.int 500) := by
  cases y with
  | map md =>
    rw [loadMetadata_map md] at h
    injection h with h2
    subst h2
    exact ⟨md, rfl, rfl, rfl⟩
  | null => exact absurd h (by simp [loadMetadata, yGet, exBind_error])
  | bool b => exact absurd h (by simp [loadMetadata, yGet, exBind_error])
  | int n => exact absurd h (by simp [loadMetadata, yGet, exBind_error])
  | flt q => exact absurd h (by simp [loadMetadata, yGet, exBind_error])
  | str s => exact absurd h (by simp [loadMetadata, yGet, exBind_error])
  | arr l => exact absurd h (by simp [loadMetadata, yGet, exBind_error])

theorem load_prompt_fields (path : Str) (d : List (Str × Yaml)) (p : RawPrompt)
    (h : load_prompt path (Except.ok (.map d)) = Except.ok p) :
    p.template = yGetD d (S "template") (.str []) ∧
    loadMetadata (yGetD d (S "metadata") (.map [])) = Except.ok p.metadata := by
  unfold load_prompt at h
  rw [exBind_ok, asMap_ok, exBind_ok] at h
  rcases hy1 : yamlIter (yGetD d (S "parameters") (.arr [])) with e1 | ps <;>
    rw [hy1] at h
  · rw [exBind_error] at h; cases h
  rw [exBind_ok] at h
  rcases hy2 : ps.mapM loadParameter with e2 | parameters <;> rw [hy2] at h
  · rw [exBind_error] at h; cases h
  rw [exBind_ok] at h
  rcases hy3 : loadMetadata (yGetD d (S "metadata") (.map [])) with e3 | metadata <;>
    rw [hy3] at h
  · rw [exBind_error] at h; cases h
  rw [exBind_ok] at h
  rcases hy4 : yamlIter (yGetD d (S "examples") (.arr [])) with e4 | exs <;>
    rw [hy4] at h
  · rw [exBind_error] at h; cases h
  rw [exBind_ok] at h
  rcases hy5 : exs.mapM loadExample with e5 | examples <;> rw [hy5] at h
  · rw [exBind_error] at h; cases h
  rw [exBind_ok] at h
  rcases hy6 : ySubKey (.map d) (S "name") with e6 | name <;> rw [hy6] at h
  · rw [exBind_error] at h; cases h
  rw [exBind_ok] at h
  injection h with h2
  subst h2
  exact ⟨rfl, rfl⟩

theorem load_prompt_invariant (path : Str) (parsed : Except Str Yaml) (p : RawPrompt)
    (h : load_prompt path parsed = Except.ok p) (hd : declaredOk parsed = true) :
    recordInvariant p = true := by
  rcases parsed with e | y
  · simp [declaredOk] at hd
  rcases y with _ | b | n | q | s | l | d
  · simp [declaredOk] at hd
  · simp [declaredOk] at hd
  · simp [declaredOk] at hd
  · simp [declaredOk] at hd
  · simp [declaredOk] at hd
  · simp [declaredOk] at hd
  obtain ⟨htpl, hmeta⟩ := load_prompt_fields path d p h
  simp only [declaredOk, Bool.and_eq_true] at hd
  obtain ⟨hd1, hd2⟩ := hd
  obtain ⟨md, hmd, hrm, het⟩ := loadMetadata_shape _ _ hmeta
  have htv : templateNonblank p.template = true := by
    rcases hf : yFind d (S "template") with _ | v
    · rw [hf] at hd1; cases hd1
    · rw [hf] at hd1
      rcases v with _ | b2 | n2 | q2 | s2 | l2 | d2 <;> try cases hd1
      rw [htpl, yGetD, hf]
      simpa [templateNonblank] using hd1
  have hmv : modelNonempty p.metadata.recommended_model = true := by
    rw [hmd] at hd2
    simp only [Bool.and_eq_true] at hd2
    have hd21 := hd2.1
    rcases hf : yFind md (S "recommended_model") with _ | v
    · rw [hrm, yGetD, hf]
      decide
    · rw [hf] at hd21
      rcases v with _ | b2 | n2 | q2 | s2 | l2 | d2 <;> try cases hd21
      rw [hrm, yGetD, hf]
      simpa [modelNonempty] using hd21
  have hev : tokensPositive p.metadata.expected_tokens = true := by
    rw [hmd] at hd2
    simp only [Bool.and_eq_true] at hd2
    have hd22 := hd2.2
    rcases hf : yFind md (S "expected_tokens") with _ | v
    · rw [het, yGetD, hf]
      decide
    · rw [hf] at hd22
      rcases v with _ | b2 | n2 | q2 | s2 | l2 | d2 <;> try cases hd22
      rw [het, yGetD, hf]
      simpa [tokensPositive] using hd22
  simp [recordInvariant, htv, hmv, hev]

/-- Claim C3 (amended): every record the loader caches comes from a file
whose load succeeded, and the invariant (non-blank template, non-empty
recommended model, positive expected tokens) holds for exactly those
cached records whose source file declares a non-blank string template
and whose metadata omits or properly supplies the model and token
fields.  The loader itself enforces nothing: a mapping with only a name
loads fine with a blank template (see the counterexample). -/
theorem load_invariant :
    (∀ (files : List (Str × Except Str Yaml)) (kp : Yaml × RawPrompt),
      kp ∈ load_all files → ∃ f ∈ files, load_prompt f.1 f.2 = Except.ok kp.2) ∧
    (∀ (path : Str) (parsed : Except Str Yaml) (p : RawPrompt),
      load_prompt path parsed = Except.ok p → declaredOk parsed = true →
      recordInvariant p = true) := by
  constructor
  · intro files kp h
    rcases load_all_mem files [] kp h with hc | hg
    · cases hc
    · exact hg
  · exact load_prompt_invariant

/-- Claim C3 counterexample: a record file that is a mapping carrying
only a name loads successfully; the library cache then holds exactly one
record, whose template is the empty string — blank after trimming, so
the claimed invariant fails on it. -/
theorem load_blank_template_cex :
    (load_all [(S "f", Except.ok (.map [(S "name", .str (S "foo"))]))]).map
        (fun kp => kp.2.template) = [.str []] ∧
    (load_all [(S "f", Except.ok (.map [(S "name", .str (S "foo"))]))]).map
        (fun kp => recordInvariant kp.2) = [false] :=
  ⟨rfl, rfl⟩

/-- Witness for the amended C3 at a concrete well-formed record file. -/
theorem load_invariant_witness :
    load_prompt (S "g") (Except.ok (.map [(S "name", .str (S "foo")),
        (S "template", .str (S "Hello")), (S "category", .str (S "demo"))])) =
      Except.ok ⟨.str (S "foo"), .str (S "1.0"), .str (S "demo"), .str [],
        .str (S "Hello"), [], ⟨.str defaultModel, .int 500, .flt (7/10), .arr [], .null⟩,
        [], S "g"⟩ ∧
    declaredOk (Except.ok (.map [(S "name", .str (S "foo")),
        (S "template", .str (S "Hello")), (S "category", .str (S "demo"))])) = true ∧
    recordInvariant ⟨.str (S "foo"), .str (S "1.0"), .str (S "demo"), .str [],
        .str (S "Hello"), [], ⟨.str defaultModel, .int 500, .flt (7/10), .arr [], .null⟩,
        [], S "g"⟩ = true := by
  refine ⟨rfl, rfl, ?_⟩
  exact load_invariant.2 (S "g")
    (Except.ok (.map [(S "name", .str (S "foo")),
      (S "template", .str (S "Hello")), (S "category", .str (S "demo"))]))
    ⟨.str (S "foo"), .str (S "1.0"), .str (S "demo"), .str [],
      .str (S "Hello"), [], ⟨.str defaultModel, .int 500, .flt (7/10), .arr [], .null⟩,
      [], S "g"⟩ rfl rfl

theorem templateIssues_none (d : List (Str × Yaml)) (hf : yFind d (S "template") = none) :
    templateIssues d = Except.ok [] := by
  unfold templateIssues
  rw [hf]

theorem templateIssues_str (d : List (Str × Yaml)) (s : Str)
    (hf : yFind d (S "template") = some (Yaml.str s)) :
    templateIssues d =
      Except.ok (if (pyStrip s).isEmpty then [S "Template is empty"] else []) := by
  unfold templateIssues
  rw [hf]

theorem templateDeclOk_str (d : List (Str × Yaml)) (s : Str)
    (hf : yFind d (S "template") = some (Yaml.str s)) :
    templateDeclOk d = !(pyStrip s).isEmpty := by
  unfold templateDeclOk
  rw [hf]

theorem parameterIssues_none (d : List (Str × Yaml))
    (hf : yFind d (S "parameters") = none) : parameterIssues d = Except.ok [] := by
  unfold parameterIssues
  rw [hf]

theorem parameterIssues_arr (d : List (Str × Yaml)) (l : List Yaml)
    (hf : yFind d (S "parameters") = some (Yaml.arr l)) :
    parameterIssues d =
      ((l.enumFrom 0).mapM paramCheck >>= fun opts => Except.ok (opts.filterMap id)) := by
  unfold parameterIssues
  rw [hf]
  rfl

theorem paramsDeclOk_arr (d : List (Str × Yaml)) (l : List Yaml)
    (hf : yFind d (S "parameters") = some (Yaml.arr l)) :
    paramsDeclOk d = paramsAllNamed l := by
  unfold paramsDeclOk
  rw [hf]

theorem validate_map_eq (d : List (Str × Yaml)) :
    validate_prompt_format (Except.ok (.map d)) =
      (templateIssues d >>= fun tIssues => parameterIssues d >>= fun pIssues =>
        Except.ok (missingFieldIssues d ++ tIssues ++ pIssues)) := rfl

theorem paramScan (l : List Yaml) :
    ∀ (n : Nat), (∀ p ∈ l, ∃ m, p = Yaml.map m) →
      ∃ opts : List (Option Str), (l.enumFrom n).mapM paramCheck = Except.ok opts ∧
        (opts.filterMap id = [] ↔ paramsAllNamed l = true) := by
  induction l with
  | nil =>
    intro n _
    exact ⟨[], rfl, by simp [paramsAllNamed]⟩
  | cons p rest ih =>
    intro n hall
    obtain ⟨m, rfl⟩ := hall p (List.mem_cons_self _ _)
    obtain ⟨opts, hopts, hiff⟩ :=
      ih (n + 1) (fun q hq => hall q (List.mem_cons_of_mem _ hq))
    refine ⟨(if (yFind m (S "name")).isSome then none else some (paramIssue n)) :: opts,
      ?_, ?_⟩
    · rw [List.enumFrom_cons, List.mapM_cons]
      rw [show paramCheck (n, Yaml.map m) =
        Except.ok (if (yFind m (S "name")).isSome then none
          else some (paramIssue n)) from rfl]
      rw [exBind_ok, hopts, exBind_ok]
      rfl
    · by_cases hn : (yFind m (S "name")).isSome = true
      · rw [if_pos hn]
        have h1 : (none :: opts).filterMap id = opts.filterMap id := by simp
        have h2 : paramsAllNamed (Yaml.map m :: rest) = paramsAllNamed rest := by
          simp [paramsAllNamed, hn]
        rw [h1, h2]
        exact hiff
      · rw [if_neg hn]
        have hn' : (yFind m (S "name")).isSome = false := Bool.eq_false_iff.mpr hn
        have h2 : paramsAllNamed (Yaml.map m :: rest) = false := by
          simp [paramsAllNamed, hn']
        rw [h2]
        constructor
        · intro hc
          simp at hc
        · intro hc
          cases hc

theorem parameterIssues_ok (d : List (Str × Yaml))
    (hp : ∀ ps, yFind d (S "parameters") = some ps →
      ∃ l, ps = Yaml.arr l ∧ ∀ p ∈ l, ∃ m, p = Yaml.map m) :
    ∃ issues, parameterIssues d = Except.ok issues ∧
      (issues = [] ↔ paramsDeclOk d = true) := by
  rcases hf : yFind d (S "parameters") with _ | ps
  · refine ⟨[], parameterIssues_none d hf, ?_⟩
    unfold paramsDeclOk
    rw [hf]
    simp
  · obtain ⟨l, rfl, hl⟩ := hp ps hf
    obtain ⟨opts, hopts, hiff⟩ := paramScan l 0 hl
    refine ⟨opts.filterMap id, ?_, ?_⟩
    · rw [parameterIssues_arr d l hf, hopts, exBind_ok]
    · rw [paramsDeclOk_arr d l hf]
      exact hiff

theorem templateIssues_ok (d : List (Str × Yaml))
    (ht : ∀ v, yFind d (S "template") = some v → ∃ s, v = Yaml.str s) :
    ∃ issues, templateIssues d = Except.ok issues ∧
      (issues = [] ↔
        ((yFind d (S "template")).isSome = true → templateDeclOk d = true)) := by
  rcases hf : yFind d (S "template") with _ | v
  · refine ⟨[], templateIssues_none d hf, ?_⟩
    simp [hf]
  · obtain ⟨s, rfl⟩ := ht v hf
    rw [templateIssues_str d s hf, templateDeclOk_str d s hf]
    by_cases he : (pyStrip s).isEmpty = true
    · rw [if_pos he]
      refine ⟨[S "Template is empty"], rfl, ?_⟩
      constructor
      · intro hc
        simp at hc
      · intro hc
        have h2 := hc (by simp)
        rw [he] at h2
        simp at h2
    · rw [if_neg he]
      have he' : (pyStrip s).isEmpty = false := Bool.eq_false_iff.mpr he
      exact ⟨[], rfl, by simp [he']⟩

theorem missingFieldIssues_nil (d : List (Str × Yaml)) :
    missingFieldIssues d = [] ↔
      ((yFind d (S "name")).isSome = true ∧ (yFind d (S "template")).isSome = true ∧
        (yFind d (S "category")).isSome = true) := by
  unfold missingFieldIssues requiredFields
  cases h1 : (yFind d (S "name")).isSome <;>
    cases h2 : (yFind d (S "template")).isSome <;>
      cases h3 : (yFind d (S "category")).isSome <;>
        simp [List.filterMap_cons, h1, h2, h3]

/-- Claim C9: a failed parse immediately yields the single
"Invalid YAML" issue; a non-mapping root immediately yields its single
issue; and for a mapping whose template field (if present) is a string
and whose parameters field (if present) is a list of mappings,
validation returns an ordered issue list that is empty exactly when the
three required fields are present, the template has non-whitespace
content, and every parameter entry carries a name. -/
theorem validate_contract :
    (∀ e : Str, validate_prompt_format (Except.error e) =
      Except.ok [S "Invalid YAML: " ++ e]) ∧
    (∀ y : Yaml, (∀ d, y ≠ Yaml.map d) →
      validate_prompt_format (Except.ok y) =
        Except.ok [S "Root element must be a mapping"]) ∧
    (∀ d : List (Str × Yaml),
      (∀ v, yFind d (S "template") = some v → ∃ s, v = Yaml.str s) →
      (∀ ps, yFind d (S "parameters") = some ps →
        ∃ l, ps = Yaml.arr l ∧ ∀ p ∈ l, ∃ m, p = Yaml.map m) →
      ∃ issues, validate_prompt_format (Except.ok (.map d)) = Except.ok issues ∧
        (issues = [] ↔ validConds d = true)) := by
  refine ⟨fun e => rfl, ?_, ?_⟩
  · intro y hy
    rcases y with _ | b | n | q | s | l | d
    · rfl
    · rfl
    · rfl
    · rfl
    · rfl
    · rfl
    · exact absurd rfl (hy d)
  · intro d htpl hpar
    obtain ⟨tIss, hti, htiff⟩ := templateIssues_ok d htpl
    obtain ⟨pIss, hpi, hpiff⟩ := parameterIssues_ok d hpar
    refine ⟨missingFieldIssues d ++ tIss ++ pIss, ?_, ?_⟩
    · rw [validate_map_eq, hti, exBind_ok, hpi, exBind_ok]
    · simp only [List.append_eq_nil]
      constructor
      · rintro ⟨⟨hm, ht0⟩, hp0⟩
        obtain ⟨hn, htp, hc⟩ := (missingFieldIssues_nil d).mp hm
        have hdecl := (htiff.mp ht0) htp
        have hpd := hpiff.mp hp0
        simp [validConds, hn, hc, hdecl, hpd]
      · intro hv
        simp only [validConds, Bool.and_eq_true] at hv
        obtain ⟨⟨⟨hn, htd⟩, hc⟩, hpd⟩ := hv
        have htp : (yFind d (S "template")).isSome = true := by
          unfold templateDeclOk at htd
          rcases hf : yFind d (S "template") with _ | v
          · rw [hf] at htd
            cases htd
          · simp [hf]
        exact ⟨⟨(missingFieldIssues_nil d).mpr ⟨hn, htp, hc⟩, htiff.mpr (fun _ => htd)⟩,
          hpiff.mpr hpd⟩

/-- Witness for C9 at a concrete well-formed record mapping. -/
theorem validate_contract_witness :
    validate_prompt_format (Except.ok (.map [(S "name", .str (S "n")),
        (S "template", .str (S "T")), (S "category", .str (S "c")),
        (S "parameters", .arr [.map [(S "name", .str (S "p1"))]])])) =
      Except.ok [] ∧
    validConds [(S "name", .str (S "n")), (S "template", .str (S "T")),
      (S "category", .str (S "c")),
      (S "parameters", .arr [.map [(S "name", .str (S "p1"))]])] = true := by
  obtain ⟨issues, hv, hiff⟩ := validate_contract.2.2
    [(S "name", .str (S "n")), (S "template", .str (S "T")),
      (S "category", .str (S "c")),
      (S "parameters", .arr [.map [(S "name", .str (S "p1"))]])]
    (fun v hv => by cases hv; exact ⟨S "T", rfl⟩)
    (fun ps hps => by
      cases hps
      refine ⟨[.map [(S "name", .str (S "p1"))]], rfl, ?_⟩
      intro p hp
      rw [List.mem_singleton] at hp
      subst hp
      exact ⟨_, rfl⟩)
  have hnil : issues = [] := hiff.mpr rfl
  subst hnil
  exact ⟨hv, rfl⟩

/-- Claim C10: `validate_prompt_format` returns an issue list (rather
than raising) only when a present top-level template field is a string;
on a mapping whose template holds a non-string value, the whitespace
check applies `.strip()` to that value and the call raises an exception
to the caller instead of reporting an issue. -/
theorem validate_nonstring_template :
    (∀ (d : List (Str × Yaml)) (issues : List Str),
      validate_prompt_format (Except.ok (.map d)) = Except.ok issues →
      ∀ v, yFind d (S "template") = some v → ∃ s, v = Yaml.str s) ∧
    (∀ (d : List (Str × Yaml)) (v : Yaml), yFind d (S "template") = some v →
      (∀ s, v ≠ Yaml.str s) →
      validate_prompt_format (Except.ok (.map d)) = Except.error attrErr) := by
  have hkey : ∀ (d : List (Str × Yaml)) (v : Yaml), yFind d (S "template") = some v →
      (∀ s, v ≠ Yaml.str s) → templateIssues d = Except.error attrErr := by
    intro d v hf hns
    unfold templateIssues
    rw [hf]
    rcases v with _ | b | n | q | s | l | dm
    · rfl
    · rfl
    · rfl
    · rfl
    · exact absurd rfl (hns s)
    · rfl
    · rfl
  constructor
  · intro d issues h v hf
    rcases v with _ | b | n | q | s | l | dm
    case str => exact ⟨s, rfl⟩
    all_goals
      exfalso
      rw [validate_map_eq, hkey d _ hf (by intro s hc; cases hc), exBind_error] at h
      cases h
  · intro d v hf hns
    rw [validate_map_eq, hkey d v hf hns, exBind_error]

/-- Witness for C10: a mapping whose template is the integer `5` makes
validation raise. -/
theorem validate_nonstring_template_witness :
    yFind [(S "template", Yaml.int 5)] (S "template") = some (Yaml.int 5) ∧
    validate_prompt_format (Except.ok (.map [(S "template", Yaml.int 5)])) =
      Except.error attrErr := by
  refine ⟨rfl, ?_⟩
  exact validate_nonstring_template.2 [(S "template", Yaml.int 5)] (Yaml.int 5) rfl
    (by intro s hc; cases hc)

end PromptLib
